import Mathlib

/-!
Verification development for the swarm debugging coordinator.

The development shallowly embeds the coordination core of the repository:
the JSON-backed memory store (store and load through the canonical JSON
encoding), the sequential worker dispatch loop with incremental findings
visibility, the hook gateway with its logging behaviour, and the session
orchestrator.  External collaborators (the worker analysis capability and
the hook subprocess) are modelled as function parameters.

Machine-level caveats: the JSON text layer is modelled as a decoder of the
canonical encoding produced by the serializer (the serializer follows the
default Python json.dumps behaviour: ASCII-escaped strings, separators
comma-space and colon-space, integers in decimal).  Floating point numbers
are outside the model.
-/

/-! ### Characters that the token scanner is touchy about, as named constants -/

def chQuote : Char := Char.ofNat 34

def chBack : Char := Char.ofNat 92

def chLbrace : Char := Char.ofNat 123

def chRbrace : Char := Char.ofNat 125

def chApos : Char := Char.ofNat 39

def chNL : Char := Char.ofNat 10

def chCR : Char := Char.ofNat 13

def chTab : Char := Char.ofNat 9

def chBS : Char := Char.ofNat 8

def chFF : Char := Char.ofNat 12

/-! ### Decimal digits -/

/-- Character for a single decimal digit. -/
def digitChar : Nat → Char
  | 0 => '0' | 1 => '1' | 2 => '2' | 3 => '3' | 4 => '4'
  | 5 => '5' | 6 => '6' | 7 => '7' | 8 => '8' | 9 => '9'
  | _ => '?'

/-- Numeric value of a decimal digit character, by code point arithmetic. -/
def digitVal (c : Char) : Option Nat :=
  if 48 ≤ c.toNat ∧ c.toNat ≤ 57 then some (c.toNat - 48) else none

theorem digitVal_digitChar {d : Nat} (h : d < 10) : digitVal (digitChar d) = some d := by
  interval_cases d <;> decide

theorem isDigit_digitChar {d : Nat} (h : d < 10) : (digitChar d).isDigit = true := by
  interval_cases d <;> decide

/-- Decimal digits of a natural number, most significant first, with accumulator. -/
def natDigitsGo (n : Nat) (acc : List Char) : List Char :=
  if h : n < 10 then digitChar n :: acc
  else natDigitsGo (n / 10) (digitChar (n % 10) :: acc)
termination_by n
decreasing_by exact Nat.div_lt_self (by omega) (by omega)

/-- Decimal digits of a natural number, mirroring the Python repr of a nonnegative int. -/
def natToChars (n : Nat) : List Char := natDigitsGo n []

theorem natDigitsGo_append (n : Nat) :
    ∀ acc : List Char, natDigitsGo n acc = natDigitsGo n [] ++ acc := by
  induction n using Nat.strong_induction_on with
  | _ n ih =>
    intro acc
    conv_lhs => rw [natDigitsGo]
    conv_rhs => rw [natDigitsGo]
    by_cases h : n < 10
    · simp [h]
    · simp only [h, dite_false]
      rw [ih (n / 10) (Nat.div_lt_self (by omega) (by omega)) (digitChar (n % 10) :: acc),
        ih (n / 10) (Nat.div_lt_self (by omega) (by omega)) [digitChar (n % 10)]]
      simp

theorem natToChars_ne_nil (n : Nat) : natToChars n ≠ [] := by
  unfold natToChars natDigitsGo
  by_cases h : n < 10
  · simp [h]
  · simp only [h, dite_false]
    rw [natDigitsGo_append]
    simp

theorem natToChars_all_digits (n : Nat) : ∀ c ∈ natToChars n, c.isDigit = true := by
  induction n using Nat.strong_induction_on with
  | _ n ih =>
    intro c hc
    unfold natToChars natDigitsGo at hc
    by_cases h : n < 10
    · simp [h] at hc
      subst hc; exact isDigit_digitChar h
    · simp only [h, dite_false] at hc
      rw [natDigitsGo_append] at hc
      rcases List.mem_append.mp hc with h1 | h1
      · exact ih (n / 10) (Nat.div_lt_self (by omega) (by omega)) c h1
      · simp at h1; subst h1
        exact isDigit_digitChar (Nat.mod_lt _ (by omega))

/-- Value of a list of decimal digit characters, with accumulator. -/
def digitsVal (ds : List Char) (acc : Nat) : Nat :=
  match ds with
  | [] => acc
  | c :: r => digitsVal r (acc * 10 + (digitVal c).getD 0)

theorem digitsVal_append (xs ys : List Char) (a : Nat) :
    digitsVal (xs ++ ys) a = digitsVal ys (digitsVal xs a) := by
  induction xs generalizing a with
  | nil => rfl
  | cons c r ih => simp [digitsVal, ih]

theorem digitsVal_natToChars (n : Nat) : digitsVal (natToChars n) 0 = n := by
  induction n using Nat.strong_induction_on with
  | _ n ih =>
    unfold natToChars natDigitsGo
    by_cases h : n < 10
    · simp [h, digitsVal, digitVal_digitChar h]
    · simp only [h, dite_false]
      rw [natDigitsGo_append, digitsVal_append]
      have hrec := ih (n / 10) (Nat.div_lt_self (by omega) (by omega))
      unfold natToChars at hrec
      rw [hrec]
      simp [digitsVal, digitVal_digitChar (Nat.mod_lt n (show 0 < 10 by omega))]
      omega

/-! ### Hexadecimal digits, lowercase, as produced by the Python json encoder -/

/-- Character for a single lowercase hexadecimal digit. -/
def hexChar : Nat → Char
  | 0 => '0' | 1 => '1' | 2 => '2' | 3 => '3' | 4 => '4'
  | 5 => '5' | 6 => '6' | 7 => '7' | 8 => '8' | 9 => '9'
  | 10 => 'a' | 11 => 'b' | 12 => 'c' | 13 => 'd' | 14 => 'e' | 15 => 'f'
  | _ => '?'

/-- Numeric value of a hexadecimal digit character, either case, by code
point arithmetic. -/
def hexVal (c : Char) : Option Nat :=
  if 48 ≤ c.toNat ∧ c.toNat ≤ 57 then some (c.toNat - 48)
  else if 97 ≤ c.toNat ∧ c.toNat ≤ 102 then some (c.toNat - 87)
  else if 65 ≤ c.toNat ∧ c.toNat ≤ 70 then some (c.toNat - 55)
  else none

theorem hexVal_hexChar {d : Nat} (h : d < 16) : hexVal (hexChar d) = some d := by
  interval_cases d <;> decide

/-- Four lowercase hex digits of a code unit below 65536. -/
def hex4 (n : Nat) : List Char :=
  [hexChar (n / 4096 % 16), hexChar (n / 256 % 16), hexChar (n / 16 % 16), hexChar (n % 16)]

/-- Read exactly four hex digits. -/
def parseHex4 : List Char → Option (Nat × List Char)
  | a :: b :: c :: d :: r =>
    match hexVal a, hexVal b, hexVal c, hexVal d with
    | some x, some y, some z, some w => some (((x * 16 + y) * 16 + z) * 16 + w, r)
    | _, _, _, _ => none
  | _ => none

theorem parseHex4_hex4 {n : Nat} (h : n < 65536) (r : List Char) :
    parseHex4 (hex4 n ++ r) = some (n, r) := by
  have h1 : n / 4096 % 16 < 16 := Nat.mod_lt _ (by omega)
  have h2 : n / 256 % 16 < 16 := Nat.mod_lt _ (by omega)
  have h3 : n / 16 % 16 < 16 := Nat.mod_lt _ (by omega)
  have h4 : n % 16 < 16 := Nat.mod_lt _ (by omega)
  simp only [hex4, List.cons_append, List.nil_append, parseHex4,
    hexVal_hexChar h1, hexVal_hexChar h2, hexVal_hexChar h3, hexVal_hexChar h4]
  congr 1
  congr 1
  omega

/-! ### JSON values

JSON-serializable data, as produced by decoding JSON text: null, booleans,
integers, strings, arrays, string-keyed objects.  Floats are outside the
model.  Object entries keep insertion order, like Python dicts. -/

inductive JVal where
  | jnull : JVal
  | jbool : Bool → JVal
  | jint : Int → JVal
  | jstr : String → JVal
  | jarr : List JVal → JVal
  | jobj : List (String × JVal) → JVal

/-- Validity bounds of a character code point. -/
theorem char_toNat_valid (c : Char) :
    c.toNat < 55296 ∨ (57344 ≤ c.toNat ∧ c.toNat < 1114112) := by
  have h := c.valid
  simp only [Char.toNat]
  rcases h with h | h
  · left; exact_mod_cast h
  · obtain ⟨h1, h2⟩ := h
    right
    exact ⟨by exact_mod_cast h1, by exact_mod_cast h2⟩

/-- Escape of one character, following the default (ASCII-escaping) encoder of
the Python json module: quote and backslash and the five control shorthands
get two-character escapes, printable ASCII passes through, everything else
becomes a u-escape, with surrogate pairs above the basic plane. -/
def escChar (c : Char) : List Char :=
  if c = chQuote then [chBack, chQuote]
  else if c = chBack then [chBack, chBack]
  else if c = chNL then [chBack, 'n']
  else if c = chCR then [chBack, 'r']
  else if c = chTab then [chBack, 't']
  else if c = chBS then [chBack, 'b']
  else if c = chFF then [chBack, 'f']
  else if 32 ≤ c.toNat ∧ c.toNat ≤ 126 then [c]
  else if c.toNat < 65536 then chBack :: 'u' :: hex4 c.toNat
  else chBack :: 'u' :: hex4 (55296 + (c.toNat - 65536) / 1024) ++
    chBack :: 'u' :: hex4 (56320 + (c.toNat - 65536) % 1024)

/-- Escape of a character list. -/
def escChars : List Char → List Char
  | [] => []
  | c :: r => escChar c ++ escChars r

/-- Decimal text of an integer, mirroring the Python repr. -/
def intChars (n : Int) : List Char :=
  if n < 0 then '-' :: natToChars n.natAbs else natToChars n.natAbs

mutual

/-- Canonical JSON text of a value, following the default behaviour of the
Python json dumps function: item separator comma-space, key separator
colon-space, ASCII-escaped strings. -/
def encode : JVal → List Char
  | .jnull => ['n', 'u', 'l', 'l']
  | .jbool true => ['t', 'r', 'u', 'e']
  | .jbool false => ['f', 'a', 'l', 's', 'e']
  | .jint n => intChars n
  | .jstr s => chQuote :: escChars s.data ++ [chQuote]
  | .jarr [] => ['[', ']']
  | .jarr (x :: xs) => '[' :: (encode x ++ encodeItems xs) ++ [']']
  | .jobj [] => [chLbrace, chRbrace]
  | .jobj (e :: es) => chLbrace :: (encodeField e ++ encodeFields es) ++ [chRbrace]

/-- Encoding of array items after the first, each preceded by comma-space. -/
def encodeItems : List JVal → List Char
  | [] => []
  | x :: xs => ',' :: ' ' :: encode x ++ encodeItems xs

/-- Encoding of one object field: quoted key, colon-space, value. -/
def encodeField : String × JVal → List Char
  | (k, v) => chQuote :: escChars k.data ++ chQuote :: ':' :: ' ' :: encode v

/-- Encoding of object fields after the first, each preceded by comma-space. -/
def encodeFields : List (String × JVal) → List Char
  | [] => []
  | e :: es => ',' :: ' ' :: encodeField e ++ encodeFields es

end

/-! ### JSON parser

Fueled recursive descent for the canonical encoding.  The fuel only needs to
exceed the input length; the top level entry point supplies that. -/

/-- Greedily take leading decimal digits. -/
def takeDigits : List Char → List Char × List Char
  | [] => ([], [])
  | c :: r =>
    if c.isDigit then
      let p := takeDigits r
      (c :: p.1, p.2)
    else ([], c :: r)

/-- The continuation text does not begin with a digit, so greedy number
parsing stops exactly at the encoded number. -/
def restOk : List Char → Bool
  | [] => true
  | c :: _ => !c.isDigit

/-- Prepend a decoded character to a string-body parse result. -/
def consStr (ch : Char) : Option (List Char × List Char) → Option (List Char × List Char)
  | some (s, r) => some (ch :: s, r)
  | none => none

/-- Consume one expected character. -/
def expect1 (a : Char) : List Char → Option (List Char)
  | c :: r => if c = a then some r else none
  | _ => none

/-- Consume an expected three-character literal tail. -/
def expect3 (a b c : Char) : List Char → Option (List Char)
  | c1 :: c2 :: c3 :: r =>
    if c1 = a then if c2 = b then if c3 = c then some r else none else none else none
  | _ => none

/-- Consume an expected four-character literal tail. -/
def expect4 (a b c d : Char) : List Char → Option (List Char)
  | c1 :: c2 :: c3 :: c4 :: r =>
    if c1 = a then if c2 = b then if c3 = c then if c4 = d then some r
    else none else none else none else none
  | _ => none

mutual

/-- Parse one JSON value. -/
def parseVal : Nat → List Char → Option (JVal × List Char)
  | 0, _ => none
  | fuel+1, input =>
    match input with
    | [] => none
    | c :: rest =>
      if c = 'n' then
        match expect3 'u' 'l' 'l' rest with
        | some r => some (.jnull, r)
        | none => none
      else if c = 't' then
        match expect3 'r' 'u' 'e' rest with
        | some r => some (.jbool true, r)
        | none => none
      else if c = 'f' then
        match expect4 'a' 'l' 's' 'e' rest with
        | some r => some (.jbool false, r)
        | none => none
      else if c = chQuote then
        match parseStrRest fuel rest with
        | some (s, r) => some (.jstr (String.mk s), r)
        | none => none
      else if c = '[' then parseArrTail fuel rest
      else if c = chLbrace then parseObjTail fuel rest
      else if c = '-' then
        match takeDigits rest with
        | ([], _) => none
        | (ds, r) => some (.jint (-(digitsVal ds 0 : Int)), r)
      else if c.isDigit then
        match takeDigits (c :: rest) with
        | (ds, r) => some (.jint (digitsVal ds 0 : Int), r)
      else none

/-- Parse the remainder of an array after the open bracket: either an
immediate close bracket or a first item followed by the item list. -/
def parseArrTail : Nat → List Char → Option (JVal × List Char)
  | _, [] => none
  | fuel, d :: r =>
    if d = ']' then some (.jarr [], r)
    else
      match parseVal fuel (d :: r) with
      | some (x, r1) =>
        match parseItems fuel r1 with
        | some (xs, r2) => some (.jarr (x :: xs), r2)
        | none => none
      | none => none

/-- Parse the remainder of an object after the open brace: either an
immediate close brace or a first field followed by the field list. -/
def parseObjTail : Nat → List Char → Option (JVal × List Char)
  | _, [] => none
  | fuel, d :: r =>
    if d = chRbrace then some (.jobj [], r)
    else
      match parseField fuel (d :: r) with
      | some (f, r1) =>
        match parseFields fuel r1 with
        | some (fs, r2) => some (.jobj (f :: fs), r2)
        | none => none
      | none => none

/-- Parse array items after the first, up to and including the close bracket. -/
def parseItems : Nat → List Char → Option (List JVal × List Char)
  | 0, _ => none
  | fuel+1, input =>
    match input with
    | [] => none
    | c :: rest =>
      if c = ']' then some ([], rest)
      else if c = ',' then
        match expect1 ' ' rest with
        | some r =>
          match parseVal fuel r with
          | some (x, r1) =>
            match parseItems fuel r1 with
            | some (xs, r2) => some (x :: xs, r2)
            | none => none
          | none => none
        | none => none
      else none

/-- Parse one object field: quoted key, colon-space, value. -/
def parseField : Nat → List Char → Option ((String × JVal) × List Char)
  | 0, _ => none
  | fuel+1, input =>
    match input with
    | [] => none
    | q :: r =>
      if q = chQuote then
        match parseStrRest fuel r with
        | some (ks, r1) =>
          match r1 with
          | x :: y :: r2 =>
            if x = ':' then
              if y = ' ' then
                match parseVal fuel r2 with
                | some (v, r3) => some ((String.mk ks, v), r3)
                | none => none
              else none
            else none
          | _ => none
        | none => none
      else none

/-- Parse object fields after the first, up to and including the close brace. -/
def parseFields : Nat → List Char → Option (List (String × JVal) × List Char)
  | 0, _ => none
  | fuel+1, input =>
    match input with
    | [] => none
    | c :: rest =>
      if c = chRbrace then some ([], rest)
      else if c = ',' then
        match expect1 ' ' rest with
        | some r =>
          match parseField fuel r with
          | some (f, r1) =>
            match parseFields fuel r1 with
            | some (fs, r2) => some (f :: fs, r2)
            | none => none
          | none => none
        | none => none
      else none

/-- Parse the body of a string literal after the opening quote, decoding
escapes, up to and including the closing quote. -/
def parseStrRest : Nat → List Char → Option (List Char × List Char)
  | 0, _ => none
  | fuel+1, input =>
    match input with
    | [] => none
    | c :: rest =>
      if c = chQuote then some ([], rest)
      else if c = chBack then
        match rest with
        | [] => none
        | e :: r =>
          if e = chQuote then consStr chQuote (parseStrRest fuel r)
          else if e = chBack then consStr chBack (parseStrRest fuel r)
          else if e = '/' then consStr '/' (parseStrRest fuel r)
          else if e = 'n' then consStr chNL (parseStrRest fuel r)
          else if e = 'r' then consStr chCR (parseStrRest fuel r)
          else if e = 't' then consStr chTab (parseStrRest fuel r)
          else if e = 'b' then consStr chBS (parseStrRest fuel r)
          else if e = 'f' then consStr chFF (parseStrRest fuel r)
          else if e = 'u' then
            match parseHex4 r with
            | none => none
            | some (h1, r1) =>
              if 55296 ≤ h1 ∧ h1 < 56320 then
                match r1 with
                | b1 :: u1 :: r2 =>
                  if b1 = chBack then
                    if u1 = 'u' then
                      match parseHex4 r2 with
                      | none => none
                      | some (h2, r3) =>
                        if 56320 ≤ h2 ∧ h2 < 57344 then
                          consStr (Char.ofNat (65536 + (h1 - 55296) * 1024 + (h2 - 56320)))
                            (parseStrRest fuel r3)
                        else none
                    else none
                  else none
                | _ => none
              else if 56320 ≤ h1 ∧ h1 < 57344 then none
              else consStr (Char.ofNat h1) (parseStrRest fuel r1)
          else none
      else consStr c (parseStrRest fuel rest)

end

/-- Decode JSON text, mirroring the Python json loads function on canonical
encoder output: one value and no trailing text. -/
def loads (cs : List Char) : Option JVal :=
  match parseVal (cs.length + 1) cs with
  | some (v, []) => some v
  | _ => none

/-! ### Ground character facts used to steer the parser through the if chains -/

@[simp] theorem chne01 : (chBack = chQuote) = False := by decide
@[simp] theorem chne02 : ('/' = chQuote) = False := by decide
@[simp] theorem chne03 : ('/' = chBack) = False := by decide
@[simp] theorem chne04 : ('n' = chQuote) = False := by decide
@[simp] theorem chne05 : ('n' = chBack) = False := by decide
@[simp] theorem chne06 : ('r' = chQuote) = False := by decide
@[simp] theorem chne07 : ('r' = chBack) = False := by decide
@[simp] theorem chne08 : ('t' = chQuote) = False := by decide
@[simp] theorem chne09 : ('t' = chBack) = False := by decide
@[simp] theorem chne10 : ('b' = chQuote) = False := by decide
@[simp] theorem chne11 : ('b' = chBack) = False := by decide
@[simp] theorem chne12 : ('f' = chQuote) = False := by decide
@[simp] theorem chne13 : ('f' = chBack) = False := by decide
@[simp] theorem chne14 : ('u' = chQuote) = False := by decide
@[simp] theorem chne15 : ('u' = chBack) = False := by decide
@[simp] theorem chne16 : (chQuote = 'n') = False := by decide
@[simp] theorem chne17 : (chQuote = 't') = False := by decide
@[simp] theorem chne18 : (chQuote = 'f') = False := by decide
@[simp] theorem chne19 : ('[' = chQuote) = False := by decide
@[simp] theorem chne20 : (chLbrace = 'n') = False := by decide
@[simp] theorem chne21 : (chLbrace = 't') = False := by decide
@[simp] theorem chne22 : (chLbrace = 'f') = False := by decide
@[simp] theorem chne23 : (chLbrace = chQuote) = False := by decide
@[simp] theorem chne24 : (chLbrace = '[') = False := by decide
@[simp] theorem chne25 : ('-' = chQuote) = False := by decide
@[simp] theorem chne26 : ('-' = chLbrace) = False := by decide
@[simp] theorem chne27 : (chQuote = ']') = False := by decide
@[simp] theorem chne28 : (chLbrace = ']') = False := by decide
@[simp] theorem chne29 : (chQuote = chRbrace) = False := by decide
@[simp] theorem chne30 : ((',' : Char) = chRbrace) = False := by decide
@[simp] theorem chne31 : (chQuote = '[') = False := by decide
@[simp] theorem chne32 : (chQuote = chLbrace) = False := by decide

theorem escChar_length_pos (c : Char) : 0 < (escChar c).length := by
  unfold escChar
  split_ifs <;> simp

/-- Over the whole code space the escape of one character round-trips through
the escape decoding branch of the string parser. -/
theorem parseStrRest_escChars (s : List Char) :
    ∀ fuel rest, (escChars s).length < fuel →
      parseStrRest fuel (escChars s ++ chQuote :: rest) = some (s, rest) := by
  induction s with
  | nil =>
    intro fuel rest h
    match fuel with
    | f + 1 => simp [escChars, parseStrRest]
  | cons c s ih =>
    intro fuel rest h
    have hlen : (escChars (c :: s)).length = (escChar c).length + (escChars s).length := by
      simp [escChars]
    have hcpos := escChar_length_pos c
    match fuel with
    | f + 1 =>
      have hs : (escChars s).length < f := by
        have : (escChar c).length ≥ 1 := hcpos
        omega
      have hrec := ih f rest hs
      simp only [escChars, List.append_assoc]
      unfold escChar
      by_cases h1 : c = chQuote
      · subst h1
        simp [parseStrRest, consStr, hrec]
      · simp only [h1, if_false]
        by_cases h2 : c = chBack
        · subst h2
          simp [parseStrRest, consStr, hrec]
        · simp only [h2, if_false]
          by_cases h3 : c = chNL
          · subst h3
            simp [parseStrRest, consStr, hrec]
          · simp only [h3, if_false]
            by_cases h4 : c = chCR
            · subst h4
              simp [parseStrRest, consStr, hrec]
            · simp only [h4, if_false]
              by_cases h5 : c = chTab
              · subst h5
                simp [parseStrRest, consStr, hrec]
              · simp only [h5, if_false]
                by_cases h6 : c = chBS
                · subst h6
                  simp [parseStrRest, consStr, hrec]
                · simp only [h6, if_false]
                  by_cases h7 : c = chFF
                  · subst h7
                    simp [parseStrRest, consStr, hrec]
                  · simp only [h7, if_false]
                    by_cases h8 : 32 ≤ c.toNat ∧ c.toNat ≤ 126
                    · simp only [h8, if_true]
                      simp [parseStrRest, consStr, hrec, h1, h2]
                    · simp only [h8, if_false]
                      have hval := char_toNat_valid c
                      by_cases h9 : c.toNat < 65536
                      · simp only [h9, if_true]
                        have hs1 : ¬(55296 ≤ c.toNat ∧ c.toNat < 56320) := by omega
                        have hs2 : ¬(56320 ≤ c.toNat ∧ c.toNat < 57344) := by omega
                        simp [parseStrRest, consStr, parseHex4_hex4 h9, hs1, hs2,
                          Char.ofNat_toNat, hrec]
                      · simp only [h9, if_false]
                        have hge : 65536 ≤ c.toNat := by omega
                        have hlt : c.toNat < 1114112 := by omega
                        have hhi : 55296 + (c.toNat - 65536) / 1024 < 65536 := by omega
                        have hlo : 56320 + (c.toNat - 65536) % 1024 < 65536 := by
                          have := Nat.mod_lt (c.toNat - 65536) (show 0 < 1024 by omega)
                          omega
                        have hsur1 : 55296 ≤ 55296 + (c.toNat - 65536) / 1024 ∧
                            55296 + (c.toNat - 65536) / 1024 < 56320 := by
                          constructor
                          · omega
                          · have : (c.toNat - 65536) / 1024 < 1024 := by omega
                            omega
                        have hsur2 : 56320 ≤ 56320 + (c.toNat - 65536) % 1024 ∧
                            56320 + (c.toNat - 65536) % 1024 < 57344 := by
                          have := Nat.mod_lt (c.toNat - 65536) (show 0 < 1024 by omega)
                          omega
                        have harith : 65536 + (55296 + (c.toNat - 65536) / 1024 - 55296) * 1024 +
                            (56320 + (c.toNat - 65536) % 1024 - 56320) = c.toNat := by omega
                        simp only [List.cons_append, List.append_assoc]
                        rw [parseStrRest]
                        simp only [Char.reduceEq, chne01, chne14, chne15, chne02, chne03,
                          chne04, chne05, chne06, chne07, chne08, chne09, chne10, chne11,
                          chne12, chne13, if_false, if_true, parseHex4_hex4 hhi]
                        rw [if_pos hsur1]
                        simp only [eq_self_iff_true, if_true, parseHex4_hex4 hlo]
                        rw [if_pos hsur2, hrec]
                        simp only [consStr]
                        rw [harith, Char.ofNat_toNat]

@[simp] theorem mk_data (s : String) : String.mk s.data = s := rfl

@[simp] theorem chRbrace_isDigit : chRbrace.isDigit = false := by decide

theorem digit_excl {c : Char} (h : c.isDigit = true) :
    ¬c = 'n' ∧ ¬c = 't' ∧ ¬c = 'f' ∧ ¬c = chQuote ∧ ¬c = '[' ∧ ¬c = chLbrace ∧
      ¬c = '-' ∧ ¬c = ']' ∧ ¬c = chRbrace ∧ ¬c = ',' := by
  refine ⟨?_, ?_, ?_, ?_, ?_, ?_, ?_, ?_, ?_, ?_⟩ <;> (rintro rfl; revert h; decide)

theorem takeDigits_spec (ds : List Char) (hds : ∀ c ∈ ds, c.isDigit = true) :
    ∀ rest, restOk rest = true → takeDigits (ds ++ rest) = (ds, rest) := by
  induction ds with
  | nil =>
    intro rest hrest
    cases rest with
    | nil => rfl
    | cons c r =>
      simp [restOk] at hrest
      simp [takeDigits, hrest]
  | cons c ds ih =>
    intro rest hrest
    have hc := hds c (by simp)
    simp [takeDigits, hc, ih (fun x hx => hds x (by simp [hx])) rest hrest]

theorem encode_head_ne_rbrack (v : JVal) :
    ∃ c t, encode v = c :: t ∧ ¬(c = ']') := by
  cases v with
  | jnull => exact ⟨'n', _, rfl, by decide⟩
  | jbool b =>
    cases b with
    | false => exact ⟨'f', _, rfl, by decide⟩
    | true => exact ⟨'t', _, rfl, by decide⟩
  | jint n =>
    by_cases hn : n < 0
    · refine ⟨'-', natToChars n.natAbs, ?_, by decide⟩
      simp [encode, intChars, hn]
    · obtain ⟨c, t, hct⟩ : ∃ c t, natToChars n.natAbs = c :: t := by
        cases hnt : natToChars n.natAbs with
        | nil => exact absurd hnt (natToChars_ne_nil _)
        | cons c t => exact ⟨c, t, rfl⟩
      have hc : c.isDigit = true := natToChars_all_digits _ c (by rw [hct]; simp)
      refine ⟨c, t, ?_, (digit_excl hc).2.2.2.2.2.2.2.1⟩
      simp [encode, intChars, hn, hct]
  | jstr s => exact ⟨chQuote, _, rfl, by simp⟩
  | jarr xs =>
    cases xs with
    | nil => exact ⟨'[', _, rfl, by decide⟩
    | cons x xs => exact ⟨'[', _, rfl, by decide⟩
  | jobj es =>
    cases es with
    | nil => exact ⟨chLbrace, _, rfl, by simp⟩
    | cons e es => exact ⟨chLbrace, _, rfl, by simp⟩

theorem restOk_items (xs : List JVal) (rest : List Char) :
    restOk (encodeItems xs ++ ']' :: rest) = true := by
  cases xs <;> simp [encodeItems, restOk]

theorem restOk_fields (es : List (String × JVal)) (rest : List Char) :
    restOk (encodeFields es ++ chRbrace :: rest) = true := by
  cases es <;> simp [encodeFields, restOk]

theorem parseItems_encodeItems (xs : List JVal)
    (H : ∀ x ∈ xs, ∀ fuel rest, (encode x).length < fuel → restOk rest = true →
      parseVal fuel (encode x ++ rest) = some (x, rest)) :
    ∀ fuel rest, (encodeItems xs).length < fuel → restOk rest = true →
      parseItems fuel (encodeItems xs ++ ']' :: rest) = some (xs, rest) := by
  induction xs with
  | nil =>
    intro fuel rest hf hr
    obtain ⟨f, rfl⟩ : ∃ f, fuel = f + 1 := ⟨fuel - 1, by omega⟩
    simp only [encodeItems, List.nil_append]
    rw [parseItems]
    simp
  | cons x xs ih =>
    intro fuel rest hf hr
    obtain ⟨f, rfl⟩ : ∃ f, fuel = f + 1 := ⟨fuel - 1, by omega⟩
    have hlen : (encodeItems (x :: xs)).length =
        2 + (encode x).length + (encodeItems xs).length := by
      simp [encodeItems]
      omega
    simp only [encodeItems, List.cons_append, List.append_assoc]
    rw [parseItems]
    simp only [Char.reduceEq, if_false, if_true, expect1, eq_self_iff_true,
      H x (by simp) f (encodeItems xs ++ ']' :: rest) (by omega) (restOk_items xs rest),
      ih (fun y hy => H y (by simp [hy])) f rest (by omega) hr]

theorem parseField_encodeField (k : String) (v : JVal)
    (H : ∀ fuel rest, (encode v).length < fuel → restOk rest = true →
      parseVal fuel (encode v ++ rest) = some (v, rest)) :
    ∀ fuel rest, (encodeField (k, v)).length < fuel → restOk rest = true →
      parseField fuel (encodeField (k, v) ++ rest) = some ((k, v), rest) := by
  intro fuel rest hf hr
  obtain ⟨f, rfl⟩ : ∃ f, fuel = f + 1 := ⟨fuel - 1, by omega⟩
  simp only [encodeField, List.length_cons, List.length_append] at hf
  simp only [encodeField, List.cons_append, List.append_assoc]
  rw [parseField]
  simp only [eq_self_iff_true, if_true]
  have hkey := parseStrRest_escChars k.data f (':' :: ' ' :: (encode v ++ rest)) (by omega)
  simp only [List.cons_append] at hkey ⊢
  rw [hkey]
  simp only [Char.reduceEq, if_true, H f rest (by omega) hr, mk_data]

theorem parseFields_encodeFields (es : List (String × JVal))
    (H : ∀ e ∈ es, ∀ fuel rest, (encode e.2).length < fuel → restOk rest = true →
      parseVal fuel (encode e.2 ++ rest) = some (e.2, rest)) :
    ∀ fuel rest, (encodeFields es).length < fuel → restOk rest = true →
      parseFields fuel (encodeFields es ++ chRbrace :: rest) = some (es, rest) := by
  induction es with
  | nil =>
    intro fuel rest hf hr
    obtain ⟨f, rfl⟩ : ∃ f, fuel = f + 1 := ⟨fuel - 1, by omega⟩
    simp only [encodeFields, List.nil_append]
    rw [parseFields]
    simp
  | cons e es ih =>
    intro fuel rest hf hr
    obtain ⟨f, rfl⟩ : ∃ f, fuel = f + 1 := ⟨fuel - 1, by omega⟩
    obtain ⟨k, v⟩ := e
    have hlen : (encodeFields ((k, v) :: es)).length =
        2 + (encodeField (k, v)).length + (encodeFields es).length := by
      simp [encodeFields]
      omega
    simp only [encodeFields, List.cons_append, List.append_assoc]
    rw [parseFields]
    simp only [chne30, Char.reduceEq, if_false, if_true, expect1, eq_self_iff_true]
    have hfld := parseField_encodeField k v
      (fun fuel rest hfu hre => H (k, v) (by simp) fuel rest hfu hre) f
      (encodeFields es ++ chRbrace :: rest) (by omega) (restOk_fields es rest)
    simp only [List.cons_append, List.append_assoc] at hfld
    rw [hfld]
    simp only [ih (fun y hy => H y (by simp [hy])) f rest (by omega) hr]

theorem parseVal_encode_aux (N : Nat) :
    ∀ v : JVal, sizeOf v ≤ N → ∀ fuel rest, (encode v).length < fuel → restOk rest = true →
      parseVal fuel (encode v ++ rest) = some (v, rest) := by
  induction N with
  | zero =>
    intro v hv
    exfalso
    cases v <;> simp_arith at hv
  | succ N ih =>
    intro v hv fuel rest hf hr
    obtain ⟨f, rfl⟩ : ∃ f, fuel = f + 1 := ⟨fuel - 1, by omega⟩
    cases v with
    | jnull =>
      simp only [encode, List.cons_append, List.nil_append]
      rw [parseVal]
      simp only [Char.reduceEq, if_true, if_false, expect3, eq_self_iff_true]
    | jbool b =>
      cases b with
      | false =>
        simp only [encode, List.cons_append, List.nil_append]
        rw [parseVal]
        simp only [Char.reduceEq, if_true, if_false, expect4, eq_self_iff_true]
      | true =>
        simp only [encode, List.cons_append, List.nil_append]
        rw [parseVal]
        simp only [Char.reduceEq, if_true, if_false, expect3, eq_self_iff_true]
    | jint n =>
      obtain ⟨c, t, hct⟩ : ∃ c t, natToChars n.natAbs = c :: t := by
        cases hnt : natToChars n.natAbs with
        | nil => exact absurd hnt (natToChars_ne_nil _)
        | cons c t => exact ⟨c, t, rfl⟩
      by_cases hn : n < 0
      · simp only [encode, intChars, hn, if_true, List.cons_append]
        rw [parseVal]
        simp only [Char.reduceEq, chne25, chne26, if_true, if_false]
        rw [takeDigits_spec _ (natToChars_all_digits _) rest hr, hct]
        simp only [← hct, digitsVal_natToChars, Option.some.injEq, Prod.mk.injEq,
          JVal.jint.injEq, and_true]
        omega
      · have hc : c.isDigit = true := natToChars_all_digits _ c (by rw [hct]; simp)
        have hex := digit_excl hc
        simp only [encode, intChars, hn, if_false, hct, List.cons_append]
        rw [parseVal]
        simp only [hex.1, hex.2.1, hex.2.2.1, hex.2.2.2.1, hex.2.2.2.2.1,
          hex.2.2.2.2.2.1, hex.2.2.2.2.2.2.1, if_false, hc, if_true]
        have hrejoin : c :: (t ++ rest) = natToChars n.natAbs ++ rest := by
          rw [hct]
          simp
        rw [hrejoin, takeDigits_spec _ (natToChars_all_digits _) rest hr, hct]
        simp only [← hct, digitsVal_natToChars, Option.some.injEq, Prod.mk.injEq,
          JVal.jint.injEq, and_true]
        omega
    | jstr s =>
      simp only [encode, List.length_cons, List.length_append] at hf
      simp only [encode, List.cons_append, List.append_assoc, List.singleton_append,
        List.nil_append]
      rw [parseVal]
      simp only [chne16, chne17, chne18, if_false, eq_self_iff_true, if_true]
      rw [parseStrRest_escChars s.data f rest (by omega)]
    | jarr xs =>
      cases xs with
      | nil =>
        simp only [encode, List.cons_append, List.nil_append]
        rw [parseVal]
        simp only [Char.reduceEq, chne19, if_false, if_true]
        rw [parseArrTail]
        simp
      | cons x xs =>
        obtain ⟨d, t, hdt, hdne⟩ := encode_head_ne_rbrack x
        have hszx : sizeOf x ≤ N := by
          simp only [JVal.jarr.sizeOf_spec, List.cons.sizeOf_spec] at hv
          omega
        have hszxs : ∀ y ∈ xs, sizeOf y ≤ N := by
          intro y hy
          have h1 := List.sizeOf_lt_of_mem hy
          simp only [JVal.jarr.sizeOf_spec, List.cons.sizeOf_spec] at hv
          omega
        simp only [encode, List.length_cons, List.length_append] at hf
        simp only [encode, List.cons_append, List.append_assoc, List.singleton_append,
          List.nil_append]
        rw [parseVal]
        simp only [Char.reduceEq, chne19, if_false, if_true]
        rw [hdt]
        simp only [List.cons_append]
        rw [parseArrTail]
        simp only [hdne, if_false]
        have hback : d :: (t ++ (encodeItems xs ++ ']' :: rest)) =
            encode x ++ (encodeItems xs ++ ']' :: rest) := by
          rw [hdt]
          simp
        rw [hback]
        simp only [ih x hszx f (encodeItems xs ++ ']' :: rest) (by omega)
          (restOk_items xs rest)]
        simp only [parseItems_encodeItems xs (fun y hy => ih y (hszxs y hy)) f rest
          (by omega) hr]
    | jobj es =>
      cases es with
      | nil =>
        simp only [encode, List.cons_append, List.nil_append]
        rw [parseVal]
        simp only [Char.reduceEq, chne20, chne21, chne22, chne23, chne24, chne32,
          if_false, if_true]
        rw [parseObjTail]
        simp
      | cons e es =>
        obtain ⟨k, v⟩ := e
        have hszv : sizeOf v ≤ N := by
          simp only [JVal.jobj.sizeOf_spec, List.cons.sizeOf_spec,
            Prod.mk.sizeOf_spec] at hv
          omega
        have hszes : ∀ y ∈ es, sizeOf y.2 ≤ N := by
          intro y hy
          have h1 := List.sizeOf_lt_of_mem hy
          obtain ⟨k2, v2⟩ := y
          simp only [Prod.mk.sizeOf_spec] at h1 ⊢
          simp only [JVal.jobj.sizeOf_spec, List.cons.sizeOf_spec,
            Prod.mk.sizeOf_spec] at hv
          omega
        simp only [encode, encodeField, List.length_cons, List.length_append] at hf
        simp only [encode, encodeField, List.cons_append, List.append_assoc,
          List.singleton_append, List.nil_append]
        rw [parseVal]
        simp only [chne20, chne21, chne22, chne23, chne24, if_false,
          eq_self_iff_true, if_true]
        rw [parseObjTail]
        simp only [chne29, if_false]
        have hfld := parseField_encodeField k v (fun fu re hfu hre => ih v hszv fu re hfu hre)
          f (encodeFields es ++ chRbrace :: rest)
          (by simp only [encodeField, List.length_cons, List.length_append]; omega)
          (restOk_fields es rest)
        simp only [encodeField, List.cons_append, List.append_assoc] at hfld
        rw [hfld]
        simp only [parseFields_encodeFields es (fun y hy => ih y.2 (hszes y hy)) f rest
          (by omega) hr]

theorem loads_encode (v : JVal) : loads (encode v) = some v := by
  have h := parseVal_encode_aux (sizeOf v) v (le_refl _) ((encode v).length + 1) []
    (by omega) rfl
  simp only [List.append_nil] at h
  unfold loads
  rw [h]

/-! ### Memory Store

Embedding of the store and load helpers of the coordinator: a table of rows
keyed by primary key, values serialized with the canonical JSON encoder.
The insert uses replace semantics on the primary key. -/

structure StoreRow where
  key : String
  value : List Char
  timestamp : String
  ttl : Option Int

/-- Upsert one row, mirroring insert-or-replace on the primary key. -/
def storePut (st : List StoreRow) (k : String) (txt : List Char) (nowIso : String) :
    List StoreRow :=
  ⟨k, txt, nowIso, none⟩ :: st.filter (fun row => !(row.key = k))

/-- Select the value column of the row with the given key, if present. -/
def storeFind (st : List StoreRow) (k : String) : Option (List Char) :=
  (st.find? (fun row => row.key = k)).map (fun row => row.value)

/-! ### Data model of the coordinator -/

/-- One entry of the in-memory coordination log, as appended by the hook
gateway: stdout is recorded on success, stderr on failure. -/
structure LogEntry where
  timestamp : String
  hook : String
  params : List (String × String)
  success : Bool
  output : Option String
  error : Option String

/-- Outcome of launching the external hook process: either it completed with
an exit code and captured streams, or the launch raised (timeout from the
thirty-second bound, or an operating system error). -/
inductive ProcOutcome where
  | completed : Int → String → String → ProcOutcome
  | raised : String → ProcOutcome

/-- A debugging worker: name, role prompt, iteration budget. -/
structure Agent where
  agent_name : String
  system_prompt : String
  max_loops : Nat

/-- The in-process shared memory dictionary of the swarm; only the two keys
that the source ever writes are modelled as fields. -/
structure DebugMemory where
  current_issue : Option String
  agent_findings : List (String × String)

/-- The swarm: capacity bound, ordered workers, shared memory. -/
structure TerminalDebugSwarm where
  max_agents : Nat
  agents : List Agent
  debug_memory : DebugMemory

/-- The coordinator state. The database file existence is tracked as a flag;
the store list is the table content. -/
structure Coordinator where
  memory_db_path : String
  swarm : Option TerminalDebugSwarm
  coordination_log : List LogEntry
  store : List StoreRow
  db_exists : Bool

/-- Python dict assignment: update in place when the key exists, append
otherwise. -/
def pyDictSet {α : Type} (d : List (String × α)) (k : String) (v : α) :
    List (String × α) :=
  if d.any (fun p => p.1 = k) then d.map (fun p => if p.1 = k then (k, v) else p)
  else d ++ [(k, v)]

/-! ### Worker registry -/

def frontendPrompt : String := "You are a frontend debugging specialist for terminal applications.\nFocus on:\n- React/TypeScript component issues\n- UI rendering problems\n- State management bugs\n- Mobile responsiveness issues\n- Terminal interface problems\n\nCoordinate with other agents through shared memory and findings."

def backendPrompt : String := "You are a backend debugging specialist for terminal applications.\nFocus on:\n- Rust core execution issues\n- Command processing problems\n- Security vulnerabilities\n- Performance bottlenecks\n- Inter-process communication\n\nShare findings with frontend and system agents."

def systemPrompt : String := "You are a system integration debugging specialist.\nFocus on:\n- Build system issues\n- Dependency conflicts\n- Environment configuration\n- Docker/deployment problems\n- CI/CD pipeline failures\n\nCoordinate overall system health with all agents."

def testPrompt : String := "You are a test debugging and coordination specialist.\nFocus on:\n- Test failures analysis\n- TDD workflow issues\n- Test coverage problems\n- Integration test coordination\n- Quality assurance\n\nEnsure all fixes are properly tested."

def perfPrompt : String := "You are a performance debugging specialist.\nFocus on:\n- Memory usage optimization\n- CPU performance issues\n- Bundle size analysis\n- Runtime performance\n- Resource utilization\n\nProvide performance insights to all agents."

/-- The five specialized debugging agents, in registry order. -/
def create_debug_agents : List Agent :=
  [⟨"FrontendDebugger", frontendPrompt, 3⟩,
   ⟨"BackendDebugger", backendPrompt, 3⟩,
   ⟨"SystemIntegrator", systemPrompt, 3⟩,
   ⟨"TestCoordinator", testPrompt, 3⟩,
   ⟨"PerformanceAnalyzer", perfPrompt, 3⟩]

/-- Factory: swarm with capacity bound five and the five fixed agents. -/
def create_terminal_debug_swarm : TerminalDebugSwarm :=
  { max_agents := 5, agents := create_debug_agents, debug_memory := ⟨none, []⟩ }

/-! ### Dispatch -/

/-- Python repr of a short string: single quotes around the text. -/
def pyReprStr (s : String) : String := String.mk (chApos :: s.data ++ [chApos])

/-- Entries of a Python dict repr, comma separated. -/
def reprEntries : List (String × String) → String
  | [] => ""
  | [(k, v)] => pyReprStr k ++ ": " ++ pyReprStr v
  | (k, v) :: rest => pyReprStr k ++ ": " ++ pyReprStr v ++ ", " ++ reprEntries rest

/-- Python repr of a dict from strings to strings, as interpolated into the
context prompt. -/
def reprFindings (d : List (String × String)) : String :=
  String.mk [chLbrace] ++ reprEntries d ++ String.mk [chRbrace]

def ctxPromptA : String := "\nDEBUGGING CONTEXT:\nIssue: "

def ctxPromptB : String := "\n\nPrevious findings from other agents:\n"

def ctxPromptC : String := "\n\nYour task: Analyze this issue from your specialty perspective and provide:\n1. Root cause analysis\n2. Specific recommendations\n3. Code fixes or configuration changes\n4. Testing strategy\n5. Coordination notes for other agents\n"

/-- The context-aware prompt built for each worker: the issue text and the
findings accumulated so far. -/
def mkContextPrompt (issue : String) (findings : List (String × String)) : String :=
  ctxPromptA ++ issue ++ ctxPromptB ++ reprFindings findings ++ ctxPromptC

/-- What the loop records for a worker call: the returned text on success,
the Error-prefixed message on a raised exception. -/
def stepResult : Except String String → String
  | .ok r => r
  | .error e => "Error: " ++ e

/-- Trace record of one worker invocation inside a dispatch: the worker
name, the findings snapshot its prompt embeds, the prompt itself, the raw
outcome of the analysis call and the recorded result. -/
structure DispatchStep where
  agentName : String
  contextFindings : List (String × String)
  prompt : String
  rawResult : Except String String
  result : String

/-- The dispatch loop over the remaining workers.  Mirrors the source loop:
build the context prompt from the current findings, call the worker, record
the result; successful results are also committed to the shared findings
used by later workers, failures are recorded as Error strings and the loop
continues.  The third component is the observation trace of the loop. -/
def dispatchLoop (run : Agent → String → Except String String) (issue : String) :
    List Agent → List (String × String) → List (String × String) →
    List (String × String) × List (String × String) × List DispatchStep
  | [], results, findings => (results, findings, [])
  | a :: rest, results, findings =>
    let prompt := mkContextPrompt issue findings
    let r := run a prompt
    let res := stepResult r
    let results2 := pyDictSet results a.agent_name res
    let findings2 := match r with
      | .ok _ => pyDictSet findings a.agent_name res
      | .error _ => findings
    let out := dispatchLoop run issue rest results2 findings2
    (out.1, out.2.1, ⟨a.agent_name, findings, prompt, r, res⟩ :: out.2.2)

/-- Coordinate debugging across all agents: reset the shared findings, store
the issue, run the loop.  Returns the result mapping, the updated swarm and
the dispatch trace. -/
def coordinate_debugging (run : Agent → String → Except String String)
    (sw : TerminalDebugSwarm) (issue : String) :
    List (String × String) × TerminalDebugSwarm × List DispatchStep :=
  let out := dispatchLoop run issue sw.agents [] []
  (out.1, { sw with debug_memory := ⟨some issue, out.2.1⟩ }, out.2.2)

def solPromptA : String := "\nBased on the following debugging analysis from specialized agents:\n\n"

def solPromptB : String := "\n\nGenerate a comprehensive, coordinated solution that:\n1. Addresses the root cause\n2. Provides step-by-step implementation\n3. Includes testing verification\n4. Considers system-wide impacts\n5. Ensures coordination between frontend/backend/system\n"

/-- The synthesis prompt handed to the first agent. -/
def mkSolutionPrompt (debug_results : List (String × String)) : String :=
  solPromptA ++ reprFindings debug_results ++ solPromptB

def noAgentsMsg : String := "No agents available for solution generation"

/-- Generate the coordinated solution: the first agent synthesizes; with no
agents the fixed sentinel is returned.  A raise of the synthesis call is the
only uncaught exception of the orchestrator and is surfaced as the error. -/
def generate_coordinated_solution (run : Agent → String → Except String String)
    (agents : List Agent) (debug_results : List (String × String)) :
    Except String String :=
  match agents with
  | [] => .ok noAgentsMsg
  | a :: _ => run a (mkSolutionPrompt debug_results)

/-! ### Hook gateway -/

/-- Command line of a hook invocation: fixed launcher, hook name, one flag
pair per parameter. -/
def mkCmd (hook_name : String) (params : List (String × String)) : List String :=
  ["npx", "claude-flow@alpha", "hooks", hook_name] ++
    params.foldl (fun acc kv => acc ++ ["--" ++ kv.1, kv.2]) []

/-- The hook gateway.  On completion with exit code zero a success entry is
appended and true returned; on a non-zero exit code a failure entry with the
captured stderr is appended and false returned; when the launch raises
(timeout or error) the handler only returns false, appending nothing. -/
def claude_flow_hook (proc : List String → ProcOutcome) (nowIso : String)
    (log : List LogEntry) (hook_name : String) (params : List (String × String)) :
    List LogEntry × Bool :=
  match proc (mkCmd hook_name params) with
  | .completed rc out err =>
    if rc = 0 then
      (log ++ [⟨nowIso, hook_name, params, true, some out, none⟩], true)
    else
      (log ++ [⟨nowIso, hook_name, params, false, none, some err⟩], false)
  | .raised _ => (log, false)

/-! ### Store and load helpers of the coordinator -/

/-- Store a value: ensure the backing storage exists, serialize the value
with the canonical JSON encoder, upsert the row. -/
def store_coordination_memory (nowIso : String) (c : Coordinator) (k : String)
    (v : JVal) : Coordinator × Bool :=
  ({ c with store := storePut c.store k (encode v) nowIso, db_exists := true }, true)

/-- Load a value: absent database or absent key or undecodable text give
none, otherwise the decoded value. -/
def load_coordination_memory (c : Coordinator) (k : String) : Option JVal :=
  if c.db_exists then
    match storeFind c.store k with
    | some txt => loads txt
    | none => none
  else none

/-! ### Session orchestrator -/

/-- Python truthiness of a decoded JSON value. -/
def truthy : JVal → Bool
  | .jnull => false
  | .jbool b => b
  | .jint n => decide (n ≠ 0)
  | .jstr s => decide (s ≠ "")
  | .jarr xs => !xs.isEmpty
  | .jobj es => !es.isEmpty

def keyDebugContext : String := "swarms/debugging/context"

def keyDebugSessions : String := "swarms/debugging/sessions"

def previousFindingsKey : String := "previous_findings"

def kSessionId : String := "session_id"

def kIssue : String := "issue"

def kTimestamp : String := "timestamp"

def kAgentResults : String := "agent_results"

def kContext : String := "context"

def kSolution : String := "coordinated_solution"

/-- Session identifier derived from the dispatch time. -/
def sessionIdStr (unix : Nat) : String := "debug-session-" ++ String.mk (natToChars unix)

/-- The context merge performed after loading prior context: merge only when
the loaded value is truthy, under the previous findings key, the loaded
value written last. -/
def mergeContext (context : Option (List (String × JVal))) (prev : Option JVal) :
    Option (List (String × JVal)) :=
  match prev with
  | some p => if truthy p then some (pyDictSet (context.getD []) previousFindingsKey p)
    else context
  | none => context

/-- Result mapping as a JSON object. -/
def resultsToJ (res : List (String × String)) : List (String × JVal) :=
  res.map (fun p => (p.1, JVal.jstr p.2))

/-- The session record as built before persistence: identifier, issue,
timestamp, per-worker results, context. -/
def sessionRecord (sid issue ts : String) (res : List (String × String))
    (ctx : List (String × JVal)) : JVal :=
  .jobj [(kSessionId, .jstr sid), (kIssue, .jstr issue), (kTimestamp, .jstr ts),
    (kAgentResults, .jobj (resultsToJ res)), (kContext, .jobj ctx)]

def descParam (issue : String) : String :=
  "Swarms debugging session: " ++ issue.take 100 ++ "..."

def completionMsg (n : Nat) : String :=
  "Debugging session completed: " ++ String.mk (natToChars n) ++ " agents participated"

def errKey : String := "error"

def errNotInit : String := "Swarm not initialized"

/-- The coordinated debugging session.  External collaborators are the
worker analysis capability and the hook process; the two datetime reads are
modelled by the unix stamp and the iso timestamp.  Mirrors the source: the
uninitialized orchestrator returns the error record; hooks are advisory and
only extend the log; the session record is persisted right after dispatch
and the solution is attached to the in-memory record afterwards. -/
def coordinate_debugging_session
    (run : Agent → String → Except String String)
    (proc : List String → ProcOutcome)
    (unix : Nat) (nowIso : String)
    (c : Coordinator) (issue : String) (context : Option (List (String × JVal))) :
    Except String (Coordinator × JVal) :=
  match c.swarm with
  | none => .ok (c, .jobj [(errKey, .jstr errNotInit)])
  | some sw =>
    let session_id := sessionIdStr unix
    let h1 := claude_flow_hook proc nowIso c.coordination_log ("pre-task")
      [("description", descParam issue), ("task-id", session_id)]
    let previous_context := load_coordination_memory c keyDebugContext
    let context2 := mergeContext context previous_context
    let dis := coordinate_debugging run sw issue
    let debug_results := dis.1
    let session_data := sessionRecord session_id issue nowIso debug_results (context2.getD [])
    let c1 : Coordinator := { c with
      swarm := some dis.2.1,
      coordination_log := h1.1,
      store := storePut c.store (keyDebugSessions ++ "/" ++ session_id)
        (encode session_data) nowIso,
      db_exists := true }
    match generate_coordinated_solution run dis.2.1.agents debug_results with
    | .error e => .error e
    | .ok solution =>
      let session_data2 := match session_data with
        | .jobj entries => JVal.jobj (pyDictSet entries kSolution (.jstr solution))
        | other => other
      let h2 := claude_flow_hook proc nowIso c1.coordination_log ("post-task")
        [("task-id", session_id), ("track-metrics", "True"), ("store-results", "True")]
      let h3 := claude_flow_hook proc nowIso h2.1 ("notify")
        [("message", completionMsg debug_results.length), ("level", "success")]
      .ok ({ c1 with coordination_log := h3.1 }, session_data2)

/-! ### Status reporter -/

/-- Field lookup on a JSON object value. -/
def jGet (j : JVal) (k : String) : Option JVal :=
  match j with
  | .jobj kvs => (kvs.find? (fun p => p.1 = k)).map (fun p => p.2)
  | _ => none

/-- The status report: initialization flag, worker count, log length,
database existence, worker names when initialized, and the session count
read from the exact sessions key (an absent or non-mapping value counts
zero). -/
def get_coordination_status (c : Coordinator) : JVal :=
  let base : List (String × JVal) :=
    [("swarm_initialized", .jbool c.swarm.isSome),
     ("agent_count", .jint (match c.swarm with
       | some sw => (sw.agents.length : Int)
       | none => 0)),
     ("coordination_log_entries", .jint (c.coordination_log.length : Int)),
     ("memory_db_exists", .jbool c.db_exists)]
  let withNames := match c.swarm with
    | some sw => base ++
      [("agent_names", .jarr (sw.agents.map (fun a => JVal.jstr a.agent_name)))]
    | none => base
  let dbg : Int := match load_coordination_memory c keyDebugSessions with
    | some (.jobj kvs) => (kvs.length : Int)
    | _ => 0
  .jobj (withNames ++ [("debugging_sessions", .jint dbg)])

/-! ### Dispatch trace characterization -/

/-- Commit of one step into the shared findings: only successful results are
committed. -/
def commitStep (findings : List (String × String)) (s : DispatchStep) :
    List (String × String) :=
  match s.rawResult with
  | .ok _ => pyDictSet findings s.agentName s.result
  | .error _ => findings

/-- Findings committed by a prefix of the trace, in order. -/
def commitFold (findings : List (String × String)) : List DispatchStep →
    List (String × String)
  | [] => findings
  | s :: tr => commitFold (commitStep findings s) tr

/-- Result mapping accumulated over trace steps, in order. -/
def resultsFold (init : List (String × String)) : List DispatchStep →
    List (String × String)
  | [] => init
  | s :: tr => resultsFold (pyDictSet init s.agentName s.result) tr

theorem dispatchLoop_trace_length (run : Agent → String → Except String String)
    (issue : String) :
    ∀ (agents : List Agent) (results findings : List (String × String)),
      (dispatchLoop run issue agents results findings).2.2.length = agents.length := by
  intro agents
  induction agents with
  | nil => intro results findings; rfl
  | cons a rest ih =>
    intro results findings
    simp [dispatchLoop, ih]

theorem dispatchLoop_trace_names (run : Agent → String → Except String String)
    (issue : String) :
    ∀ (agents : List Agent) (results findings : List (String × String)),
      (dispatchLoop run issue agents results findings).2.2.map
          (fun s => s.agentName) =
        agents.map (fun a => a.agent_name) := by
  intro agents
  induction agents with
  | nil => intro results findings; rfl
  | cons a rest ih =>
    intro results findings
    simp [dispatchLoop, ih]

theorem dispatchLoop_step_spec (run : Agent → String → Except String String)
    (issue : String) :
    ∀ (agents : List Agent) (results findings : List (String × String))
      (i : Nat) (h1 : i < agents.length)
      (h2 : i < (dispatchLoop run issue agents results findings).2.2.length),
      let step := (dispatchLoop run issue agents results findings).2.2.get ⟨i, h2⟩
      step.agentName = (agents.get ⟨i, h1⟩).agent_name ∧
      step.prompt = mkContextPrompt issue step.contextFindings ∧
      step.rawResult = run (agents.get ⟨i, h1⟩) step.prompt ∧
      step.result = stepResult step.rawResult := by
  intro agents
  induction agents with
  | nil => intro results findings i h1; exact absurd h1 (by simp)
  | cons a rest ih =>
    intro results findings i h1 h2
    cases i with
    | zero => exact ⟨rfl, rfl, rfl, rfl⟩
    | succ j =>
      have hj : j < rest.length := by simpa using h1
      have hj2 : j < (dispatchLoop run issue rest
          (pyDictSet results a.agent_name (stepResult (run a (mkContextPrompt issue findings))))
          (match run a (mkContextPrompt issue findings) with
            | .ok _ => pyDictSet findings a.agent_name
                (stepResult (run a (mkContextPrompt issue findings)))
            | .error _ => findings)).2.2.length := by
        rw [dispatchLoop_trace_length]
        exact hj
      exact ih _ _ j hj hj2

theorem dispatchLoop_findings_spec (run : Agent → String → Except String String)
    (issue : String) :
    ∀ (agents : List Agent) (results findings : List (String × String))
      (i : Nat) (h2 : i < (dispatchLoop run issue agents results findings).2.2.length),
      ((dispatchLoop run issue agents results findings).2.2.get ⟨i, h2⟩).contextFindings =
        commitFold findings ((dispatchLoop run issue agents results findings).2.2.take i) := by
  intro agents
  induction agents with
  | nil => intro results findings i h2; exact absurd h2 (by simp [dispatchLoop])
  | cons a rest ih =>
    intro results findings i h2
    cases i with
    | zero => rfl
    | succ j =>
      have hj2 : j < (dispatchLoop run issue rest
          (pyDictSet results a.agent_name (stepResult (run a (mkContextPrompt issue findings))))
          (match run a (mkContextPrompt issue findings) with
            | .ok _ => pyDictSet findings a.agent_name
                (stepResult (run a (mkContextPrompt issue findings)))
            | .error _ => findings)).2.2.length := by
        have := h2
        simp only [dispatchLoop, List.length_cons] at this
        omega
      have hrec := ih _ _ j hj2
      simp only [dispatchLoop, List.get_cons_succ, List.take_succ_cons]
      rw [hrec]
      rfl

theorem dispatchLoop_results_spec (run : Agent → String → Except String String)
    (issue : String) :
    ∀ (agents : List Agent) (results findings : List (String × String)),
      (dispatchLoop run issue agents results findings).1 =
        resultsFold results (dispatchLoop run issue agents results findings).2.2 := by
  intro agents
  induction agents with
  | nil => intro results findings; rfl
  | cons a rest ih =>
    intro results findings
    simp only [dispatchLoop]
    rw [ih]
    rfl

theorem pyDictSet_fresh {α : Type} (d : List (String × α)) (k : String) (v : α)
    (h : ∀ p ∈ d, p.1 ≠ k) : pyDictSet d k v = d ++ [(k, v)] := by
  unfold pyDictSet
  have : d.any (fun p => p.1 = k) = false := by
    simp only [List.any_eq_false]
    intro p hp
    simp [h p hp]
  simp [this]

theorem resultsFold_fresh (tr : List DispatchStep) :
    ∀ init : List (String × String),
      (∀ s ∈ tr, ∀ p ∈ init, p.1 ≠ s.agentName) →
      ((tr.map fun s => s.agentName).Nodup) →
      resultsFold init tr = init ++ tr.map (fun s => (s.agentName, s.result)) := by
  induction tr with
  | nil => intro init h hnd; simp [resultsFold]
  | cons s tr ih =>
    intro init h hnd
    simp only [List.map_cons, List.nodup_cons] at hnd
    rw [resultsFold, pyDictSet_fresh init s.agentName s.result
      (fun p hp => h s (by simp) p hp)]
    rw [ih (init ++ [(s.agentName, s.result)])]
    · simp
    · intro s2 hs2 p hp
      rcases List.mem_append.mp hp with hp1 | hp1
      · exact h s2 (by simp [hs2]) p hp1
      · simp at hp1
        subst hp1
        intro hcon
        have hmem : s2.agentName ∈ tr.map (fun x => x.agentName) :=
          List.mem_map_of_mem _ hs2
        rw [← hcon] at hmem
        exact hnd.1 hmem
    · exact hnd.2

/-! ### Store helper lemmas -/

theorem storeFind_put (st : List StoreRow) (k : String) (txt : List Char) (nowIso : String) :
    storeFind (storePut st k txt nowIso) k = some txt := by
  simp [storePut, storeFind]

theorem load_after_store (nowIso : String) (c : Coordinator) (k : String) (v : JVal) :
    load_coordination_memory (store_coordination_memory nowIso c k v).1 k = some v := by
  simp [store_coordination_memory, load_coordination_memory, storeFind_put, loads_encode]

/-! ### Concrete fixtures used by witnesses and counterexamples -/

def emptyCoordinator : Coordinator :=
  { memory_db_path := ".swarm/memory.db", swarm := none, coordination_log := [],
    store := [], db_exists := false }

/-! ### Claims about the Memory Store -/

/-- C7: for every key and every JSON-serializable value, reading the key
from the Memory Store immediately after a successful write of the value
under that key returns a value deep-equal to the written one; the record
round-trips through the canonical JSON encoding. -/
theorem spec2proof_c7_roundtrip (nowIso : String) (c : Coordinator) (k : String)
    (v : JVal) :
    load_coordination_memory (store_coordination_memory nowIso c k v).1 k = some v := by
  simp [store_coordination_memory, load_coordination_memory, storeFind_put, loads_encode]

/-- C8: writing v1 then v2 under the same key and reading the key returns
v2; when the two values differ the read never returns v1 — the second write
fully replaces the prior record. -/
theorem spec2proof_c8_overwrite (n1 n2 : String) (c : Coordinator) (k : String)
    (v1 v2 : JVal) :
    load_coordination_memory
        (store_coordination_memory n2 (store_coordination_memory n1 c k v1).1 k v2).1 k =
      some v2 ∧
    (v1 ≠ v2 →
      load_coordination_memory
          (store_coordination_memory n2 (store_coordination_memory n1 c k v1).1 k v2).1 k ≠
        some v1) := by
  refine ⟨load_after_store n2 _ k v2, ?_⟩
  intro hne hcon
  rw [load_after_store] at hcon
  exact hne (Option.some.inj hcon).symm

/-- C8 witness: overwriting the integer one with the integer two at a fixed
key reads back two and not one. -/
theorem spec2proof_c8_overwrite_witness :
    load_coordination_memory
        (store_coordination_memory ("t2")
          (store_coordination_memory ("t1") emptyCoordinator ("k") (.jint 1)).1
          ("k") (.jint 2)).1 ("k") =
      some (.jint 2) ∧
    load_coordination_memory
        (store_coordination_memory ("t2")
          (store_coordination_memory ("t1") emptyCoordinator ("k") (.jint 1)).1
          ("k") (.jint 2)).1 ("k") ≠
      some (.jint 1) :=
  ⟨(spec2proof_c8_overwrite ("t1") ("t2") emptyCoordinator ("k") (.jint 1) (.jint 2)).1,
   (spec2proof_c8_overwrite ("t1") ("t2") emptyCoordinator ("k") (.jint 1) (.jint 2)).2
     (by simp)⟩

/-! ### Claims about the Hook Gateway -/

def procRaise : List String → ProcOutcome := fun _ => ProcOutcome.raised ("timeout")

def procFail : List String → ProcOutcome := fun _ => ProcOutcome.completed 1 ("") ("boom")

def procOK : List String → ProcOutcome := fun _ => ProcOutcome.completed 0 ("") ("")

/-- C5 counterexample: when the hook launch raises (here a timeout), the
gateway returns false but the coordination log is left unchanged — no
CoordinationLogEntry is appended for this invocation attempt, contrary to
the claim that an entry is appended for every attempt. -/
theorem spec2proof_c5_counterexample :
    claude_flow_hook procRaise ("t") [] ("notify") [(("message" : String), ("m" : String))] =
      ([], false) := by
  rfl

/-- C5 amended: a completed invocation with non-zero exit code appends a
failure entry with the captured stderr and returns false; a raised launch
(timeout or error) returns false without appending any entry.  Entries are
appended only for attempts in which the external process ran to
completion. -/
theorem spec2proof_c5_amended (proc : List String → ProcOutcome) (nowIso : String)
    (log : List LogEntry) (name : String) (params : List (String × String)) :
    (∀ rc out err, proc (mkCmd name params) = .completed rc out err → rc ≠ 0 →
      claude_flow_hook proc nowIso log name params =
        (log ++ [⟨nowIso, name, params, false, none, some err⟩], false)) ∧
    (∀ msg, proc (mkCmd name params) = .raised msg →
      claude_flow_hook proc nowIso log name params = (log, false)) := by
  constructor
  · intro rc out err hp hrc
    simp [claude_flow_hook, hp, hrc]
  · intro msg hp
    simp [claude_flow_hook, hp]

/-- C5 amended witness: the two failure shapes at concrete inputs. -/
theorem spec2proof_c5_amended_witness :
    claude_flow_hook procFail ("t") [] ("notify") [] =
      ([⟨("t"), ("notify"), [], false, none, some ("boom")⟩], false) ∧
    claude_flow_hook procRaise ("t") [] ("notify") [] = ([], false) :=
  ⟨(spec2proof_c5_amended procFail ("t") [] ("notify") []).1 1 ("") ("boom") rfl
      (by decide),
   (spec2proof_c5_amended procRaise ("t") [] ("notify") []).2 ("timeout") rfl⟩

/-! ### Claims about dispatch -/

/-- C3: within one dispatch, the findings embedded in the context prompt
passed to worker i are exactly the results committed by the earlier workers
of the same dispatch, in order, and nothing else; the prompt is built from
precisely that findings mapping. -/
theorem spec2proof_c3_visibility (run : Agent → String → Except String String)
    (sw : TerminalDebugSwarm) (issue : String) (i : Nat)
    (h : i < (coordinate_debugging run sw issue).2.2.length) :
    ((coordinate_debugging run sw issue).2.2.get ⟨i, h⟩).contextFindings =
      commitFold [] ((coordinate_debugging run sw issue).2.2.take i) ∧
    ((coordinate_debugging run sw issue).2.2.get ⟨i, h⟩).prompt =
      mkContextPrompt issue
        (((coordinate_debugging run sw issue).2.2.get ⟨i, h⟩).contextFindings) := by
  have h2 : i < (dispatchLoop run issue sw.agents [] []).2.2.length := h
  have h1 : i < sw.agents.length := by
    rw [dispatchLoop_trace_length] at h2
    exact h2
  exact ⟨dispatchLoop_findings_spec run issue sw.agents [] [] i h2,
    (dispatchLoop_step_spec run issue sw.agents [] [] i h1 h2).2.1⟩

def agentA : Agent := ⟨"A", "pa", 3⟩

def agentB : Agent := ⟨"B", "pb", 3⟩

def agentC : Agent := ⟨"C", "pc", 3⟩

def swarmABC : TerminalDebugSwarm := ⟨3, [agentA, agentB, agentC], ⟨none, []⟩⟩

def runByName : Agent → String → Except String String :=
  fun a _ => if a.agent_name = "B" then .error ("boom") else .ok ("r-" ++ a.agent_name)

/-- C3 witness: with three workers the third worker receives exactly the
committed results of the first two. -/
theorem spec2proof_c3_visibility_witness :
    (2 : Nat) < (coordinate_debugging runByName swarmABC ("x")).2.2.length ∧
    ∀ h : (2 : Nat) < (coordinate_debugging runByName swarmABC ("x")).2.2.length,
      ((coordinate_debugging runByName swarmABC ("x")).2.2.get ⟨2, h⟩).contextFindings =
        commitFold [] ((coordinate_debugging runByName swarmABC ("x")).2.2.take 2) :=
  ⟨by decide, fun h => (spec2proof_c3_visibility runByName swarmABC ("x") 2 h).1⟩

/-- C4: dispatch visits every worker even when some analysis calls raise;
the per-worker result recorded in the mapping is always the outcome of that
worker's own call — the raised call of worker j is recorded as the synthetic
Error string under the name of worker j, and every other worker's entry is
its own result, unaffected. -/
theorem spec2proof_c4_isolation (run : Agent → String → Except String String)
    (sw : TerminalDebugSwarm) (issue : String) (j : Nat) (e : String)
    (hnd : (sw.agents.map (fun a => a.agent_name)).Nodup)
    (hj : j < (coordinate_debugging run sw issue).2.2.length)
    (hraise : ((coordinate_debugging run sw issue).2.2.get ⟨j, hj⟩).rawResult =
      .error e) :
    (coordinate_debugging run sw issue).2.2.length = sw.agents.length ∧
    (coordinate_debugging run sw issue).1 =
      (coordinate_debugging run sw issue).2.2.map (fun s => (s.agentName, s.result)) ∧
    ((coordinate_debugging run sw issue).2.2.get ⟨j, hj⟩).result = "Error: " ++ e ∧
    (∀ i (h3 : i < (coordinate_debugging run sw issue).2.2.length),
      ((coordinate_debugging run sw issue).2.2.get ⟨i, h3⟩).result =
        stepResult (((coordinate_debugging run sw issue).2.2.get ⟨i, h3⟩).rawResult)) := by
  have hlen : (dispatchLoop run issue sw.agents [] []).2.2.length = sw.agents.length :=
    dispatchLoop_trace_length run issue sw.agents [] []
  have hnames := dispatchLoop_trace_names run issue sw.agents [] []
  refine ⟨hlen, ?_, ?_, ?_⟩
  · have hres := dispatchLoop_results_spec run issue sw.agents [] []
    have hmap := resultsFold_fresh (dispatchLoop run issue sw.agents [] []).2.2 []
      (by intro s hs p hp; exact absurd hp (by simp)) (by rw [hnames]; exact hnd)
    simp only [List.nil_append] at hmap
    exact hres.trans hmap
  · have hj1 : j < sw.agents.length := by rw [← hlen]; exact hj
    have hs := (dispatchLoop_step_spec run issue sw.agents [] [] j hj1 hj).2.2.2
    have hraise2 : ((dispatchLoop run issue sw.agents [] []).2.2.get ⟨j, hj⟩).rawResult =
        Except.error e := hraise
    show ((dispatchLoop run issue sw.agents [] []).2.2.get ⟨j, hj⟩).result = "Error: " ++ e
    rw [hs, hraise2]
    rfl
  · intro i h3
    have hi1 : i < sw.agents.length := by rw [← hlen]; exact h3
    exact (dispatchLoop_step_spec run issue sw.agents [] [] i hi1 h3).2.2.2

/-- C4 witness: with three workers where the second raises, the mapping
lists all three workers, the second under the Error string, the others with
their own results. -/
theorem spec2proof_c4_isolation_witness :
    (1 : Nat) < (coordinate_debugging runByName swarmABC ("x")).2.2.length ∧
    ∀ hj : (1 : Nat) < (coordinate_debugging runByName swarmABC ("x")).2.2.length,
      (coordinate_debugging runByName swarmABC ("x")).2.2.length = 3 ∧
      (coordinate_debugging runByName swarmABC ("x")).1 =
        (coordinate_debugging runByName swarmABC ("x")).2.2.map
          (fun s => (s.agentName, s.result)) ∧
      ((coordinate_debugging runByName swarmABC ("x")).2.2.get ⟨1, hj⟩).result =
        "Error: " ++ "boom" := by
  refine ⟨by decide, fun hj => ?_⟩
  have h := spec2proof_c4_isolation runByName swarmABC ("x") 1 ("boom")
    (by decide) hj (by rfl)
  exact ⟨h.1, h.2.1, h.2.2.1⟩

/-- C10: the shared findings accumulator is reset at the start of every
dispatch: the whole outcome of coordinate_debugging is independent of any
debug memory left by earlier dispatches on the same swarm instance, and the
first worker of a dispatch receives an empty findings mapping. -/
theorem spec2proof_c10_reset (run : Agent → String → Except String String)
    (sw : TerminalDebugSwarm) (issue : String) (dm : DebugMemory) :
    coordinate_debugging run { sw with debug_memory := dm } issue =
      coordinate_debugging run sw issue ∧
    (∀ h : 0 < (coordinate_debugging run sw issue).2.2.length,
      ((coordinate_debugging run sw issue).2.2.get ⟨0, h⟩).contextFindings = []) := by
  constructor
  · rfl
  · intro h
    exact dispatchLoop_findings_spec run issue sw.agents [] [] 0 h

/-- C10 witness: a swarm carrying stale findings from an earlier dispatch
dispatches identically to a clean one, and its first worker sees no
findings. -/
theorem spec2proof_c10_reset_witness :
    coordinate_debugging runByName
        { swarmABC with debug_memory := ⟨some ("old"), [(("A" : String), ("stale" : String))]⟩ }
        ("x") =
      coordinate_debugging runByName swarmABC ("x") ∧
    ∀ h : 0 < (coordinate_debugging runByName swarmABC ("x")).2.2.length,
      ((coordinate_debugging runByName swarmABC ("x")).2.2.get ⟨0, h⟩).contextFindings = [] :=
  ⟨(spec2proof_c10_reset runByName swarmABC ("x")
      ⟨some ("old"), [(("A" : String), ("stale" : String))]⟩).1,
   fun h => (spec2proof_c10_reset runByName swarmABC ("x")
      ⟨some ("old"), [(("A" : String), ("stale" : String))]⟩).2 h⟩

/-- Coordination log produced by one session: the pre-task, post-task and
notify hook invocations, threaded in order. -/
def sessionLog (proc : List String → ProcOutcome) (nowIso : String)
    (log0 : List LogEntry) (issue : String) (sid : String) (n : Nat) : List LogEntry :=
  (claude_flow_hook proc nowIso
    (claude_flow_hook proc nowIso
      (claude_flow_hook proc nowIso log0 ("pre-task")
        [("description", descParam issue), ("task-id", sid)]).1
      ("post-task")
      [("task-id", sid), ("track-metrics", "True"), ("store-results", "True")]).1
    ("notify")
    [("message", completionMsg n), ("level", "success")]).1

theorem session_ok (run : Agent → String → Except String String)
    (proc : List String → ProcOutcome) (unix : Nat) (nowIso : String)
    (c : Coordinator) (issue : String) (ctx : Option (List (String × JVal)))
    (sw : TerminalDebugSwarm) (sol : String)
    (hsw : c.swarm = some sw)
    (hsol : generate_coordinated_solution run sw.agents
      (dispatchLoop run issue sw.agents [] []).1 = .ok sol) :
    coordinate_debugging_session run proc unix nowIso c issue ctx =
      .ok ({ c with
          swarm := some { sw with debug_memory :=
            ⟨some issue, (dispatchLoop run issue sw.agents [] []).2.1⟩ },
          coordination_log := sessionLog proc nowIso c.coordination_log issue
            (sessionIdStr unix) (dispatchLoop run issue sw.agents [] []).1.length,
          store := storePut c.store (keyDebugSessions ++ "/" ++ sessionIdStr unix)
            (encode (sessionRecord (sessionIdStr unix) issue nowIso
              (dispatchLoop run issue sw.agents [] []).1
              ((mergeContext ctx (load_coordination_memory c keyDebugContext)).getD [])))
            nowIso,
          db_exists := true },
        JVal.jobj (pyDictSet
          [(kSessionId, .jstr (sessionIdStr unix)), (kIssue, .jstr issue),
           (kTimestamp, .jstr nowIso),
           (kAgentResults, .jobj (resultsToJ (dispatchLoop run issue sw.agents [] []).1)),
           (kContext, .jobj ((mergeContext ctx
             (load_coordination_memory c keyDebugContext)).getD []))]
          kSolution (.jstr sol))) := by
  simp only [coordinate_debugging_session, hsw, coordinate_debugging]
  rw [hsol]
  simp only [sessionRecord, sessionLog]

/-! ### Claims about the session orchestrator -/

/-- C6: on an initialized orchestrator whose synthesis call succeeds, the
session returns the same populated DebugSession record under every hook
process behaviour — in particular when every hook invocation fails — with
one entry per worker in the result mapping and the coordinated solution
attached; hook failures never change or abort the returned record. -/
theorem spec2proof_c6_hook_nonfatal (run : Agent → String → Except String String)
    (unix : Nat) (nowIso : String) (c : Coordinator) (issue : String)
    (ctx : Option (List (String × JVal))) (sw : TerminalDebugSwarm) (sol : String)
    (hsw : c.swarm = some sw)
    (hnd : (sw.agents.map (fun a => a.agent_name)).Nodup)
    (hsol : generate_coordinated_solution run sw.agents
      (dispatchLoop run issue sw.agents [] []).1 = .ok sol) :
    ∃ rec,
      (∀ proc2 : List String → ProcOutcome, ∃ c2,
        coordinate_debugging_session run proc2 unix nowIso c issue ctx = .ok (c2, rec)) ∧
      jGet rec kSolution = some (.jstr sol) ∧
      jGet rec kAgentResults =
        some (.jobj (resultsToJ (dispatchLoop run issue sw.agents [] []).1)) ∧
      (dispatchLoop run issue sw.agents [] []).1.length = sw.agents.length := by
  refine ⟨_, fun proc2 => ⟨_, session_ok run proc2 unix nowIso c issue ctx sw sol hsw hsol⟩,
    ?_, ?_, ?_⟩
  · simp [pyDictSet, jGet, kSessionId, kIssue, kTimestamp, kAgentResults, kContext,
      kSolution]
  · simp [pyDictSet, jGet, kSessionId, kIssue, kTimestamp, kAgentResults, kContext,
      kSolution]
  · rw [dispatchLoop_results_spec run issue sw.agents [] [],
      resultsFold_fresh (dispatchLoop run issue sw.agents [] []).2.2 []
        (by intro s hs p hp; exact absurd hp (by simp))
        (by rw [dispatchLoop_trace_names]; exact hnd)]
    simp [dispatchLoop_trace_length]

def tinySwarm : TerminalDebugSwarm := ⟨1, [agentA], ⟨none, []⟩⟩

def runOK : Agent → String → Except String String := fun _ _ => .ok ("r")

def cTiny : Coordinator :=
  { memory_db_path := ".swarm/memory.db", swarm := some tinySwarm,
    coordination_log := [], store := [], db_exists := false }

/-- C6 witness: with a one-worker swarm and a hook process that always
raises, the session still returns the record carrying the solution. -/
theorem spec2proof_c6_hook_nonfatal_witness :
    ∃ rec,
      (∃ c2, coordinate_debugging_session runOK procRaise 1 ("t") cTiny ("x") none =
        .ok (c2, rec)) ∧
      jGet rec kSolution = some (.jstr ("r")) := by
  obtain ⟨rec, hall, hsolution, _, _⟩ := spec2proof_c6_hook_nonfatal runOK 1 ("t")
    cTiny ("x") none tinySwarm ("r") rfl (by decide) (by rfl)
  exact ⟨rec, hall procRaise, hsolution⟩

/-- C9 amended: when a value is present under the debugging context key, the
session context is the caller context extended with the previous findings
key only if the loaded value is truthy; a falsy loaded value (such as an
empty mapping) leaves the caller context unchanged. -/
theorem spec2proof_c9_amended (run : Agent → String → Except String String)
    (proc : List String → ProcOutcome) (unix : Nat) (nowIso : String)
    (c : Coordinator) (issue : String) (ctx : Option (List (String × JVal)))
    (sw : TerminalDebugSwarm) (sol : String) (p : JVal)
    (hsw : c.swarm = some sw)
    (hsol : generate_coordinated_solution run sw.agents
      (dispatchLoop run issue sw.agents [] []).1 = .ok sol)
    (hp : load_coordination_memory c keyDebugContext = some p) :
    ∃ c2 rec, coordinate_debugging_session run proc unix nowIso c issue ctx =
        .ok (c2, rec) ∧
      jGet rec kContext = some (.jobj (if truthy p then
        pyDictSet (ctx.getD []) previousFindingsKey p else ctx.getD [])) := by
  refine ⟨_, _, session_ok run proc unix nowIso c issue ctx sw sol hsw hsol, ?_⟩
  cases htr : truthy p with
  | true =>
    simp [jGet, pyDictSet, kSessionId, kIssue, kTimestamp, kAgentResults, kContext,
      kSolution, mergeContext, hp, htr]
  | false =>
    simp [jGet, pyDictSet, kSessionId, kIssue, kTimestamp, kAgentResults, kContext,
      kSolution, mergeContext, hp, htr]

def cCtxFalsy : Coordinator :=
  (store_coordination_memory ("t0") cTiny keyDebugContext (.jobj [])).1

def cCtxTruthy : Coordinator :=
  (store_coordination_memory ("t0") cTiny keyDebugContext
    (.jobj [(("f" : String), JVal.jint 2)])).1

/-- C9 counterexample: the Memory Store holds the empty mapping under the
debugging context key — a held value — yet the session context equals the
caller context unchanged, without any previous findings entry, because the
merge is guarded by Python truthiness rather than presence. -/
theorem spec2proof_c9_counterexample :
    (match coordinate_debugging_session runOK procOK 1 ("t") cCtxFalsy ("x")
        (some [(("a" : String), JVal.jint 1)]) with
     | .ok (_, rec) => jGet rec kContext
     | .error _ => none) = some (.jobj [(("a" : String), JVal.jint 1)]) ∧
    some (JVal.jobj [(("a" : String), JVal.jint 1)]) ≠
      some (JVal.jobj (pyDictSet [(("a" : String), JVal.jint 1)]
        previousFindingsKey (.jobj []))) := by
  constructor
  · rw [session_ok runOK procOK 1 ("t") cCtxFalsy ("x")
      (some [(("a" : String), JVal.jint 1)]) tinySwarm ("r") rfl rfl]
    have hload : load_coordination_memory cCtxFalsy keyDebugContext = some (.jobj []) :=
      load_after_store ("t0") cTiny keyDebugContext (.jobj [])
    simp [jGet, pyDictSet, kSessionId, kIssue, kTimestamp, kAgentResults, kContext,
      kSolution, mergeContext, hload, truthy]
  · simp [pyDictSet, previousFindingsKey]

/-- C9 amended witness: a truthy value under the context key is merged under
the previous findings key into the caller context. -/
theorem spec2proof_c9_amended_witness :
    ∃ c2 rec, coordinate_debugging_session runOK procOK 1 ("t") cCtxTruthy ("x")
        (some [(("a" : String), JVal.jint 1)]) = .ok (c2, rec) ∧
      jGet rec kContext = some (.jobj (if truthy (JVal.jobj [(("f" : String), JVal.jint 2)])
        then pyDictSet ((some [(("a" : String), JVal.jint 1)]).getD [])
          previousFindingsKey (.jobj [(("f" : String), JVal.jint 2)])
        else (some [(("a" : String), JVal.jint 1)]).getD [])) :=
  spec2proof_c9_amended runOK procOK 1 ("t") cCtxTruthy ("x")
    (some [(("a" : String), JVal.jint 1)]) tinySwarm ("r")
    (.jobj [(("f" : String), JVal.jint 2)]) rfl rfl
    (load_after_store ("t0") cTiny keyDebugContext (.jobj [(("f" : String), JVal.jint 2)]))

/-- C1 code bug exhibit: running a session on an initialized orchestrator,
the record persisted under the sessions key is the DebugSession without the
coordinated solution field — the write happens before the solution is
generated — while the returned record does carry the solution.  The claim
that the persisted record includes the coordinated solution fails on the
code. -/
theorem spec2proof_c1_bug :
    (match coordinate_debugging_session runOK procOK 1 ("t") cTiny ("x") none with
     | .ok (c2, rec) =>
        (match load_coordination_memory c2 (keyDebugSessions ++ "/" ++ sessionIdStr 1) with
         | some stored =>
            jGet stored kSolution = none ∧
            jGet stored kIssue = some (.jstr ("x")) ∧
            jGet stored kAgentResults =
              some (.jobj (resultsToJ [(("A" : String), ("r" : String))])) ∧
            jGet rec kSolution = some (.jstr ("r"))
         | none => False)
     | .error _ => False) := by
  rw [session_ok runOK procOK 1 ("t") cTiny ("x") none tinySwarm ("r") rfl rfl]
  simp only []
  have hload : load_coordination_memory
      { cTiny with
        swarm := some { tinySwarm with debug_memory :=
          ⟨some ("x"), (dispatchLoop runOK ("x") tinySwarm.agents [] []).2.1⟩ },
        coordination_log := sessionLog procOK ("t") cTiny.coordination_log ("x")
          (sessionIdStr 1) (dispatchLoop runOK ("x") tinySwarm.agents [] []).1.length,
        store := storePut cTiny.store (keyDebugSessions ++ "/" ++ sessionIdStr 1)
          (encode (sessionRecord (sessionIdStr 1) ("x") ("t")
            (dispatchLoop runOK ("x") tinySwarm.agents [] []).1
            ((mergeContext none (load_coordination_memory cTiny keyDebugContext)).getD [])))
          ("t"),
        db_exists := true }
      (keyDebugSessions ++ "/" ++ sessionIdStr 1) =
      some (sessionRecord (sessionIdStr 1) ("x") ("t")
        (dispatchLoop runOK ("x") tinySwarm.agents [] []).1
        ((mergeContext none (load_coordination_memory cTiny keyDebugContext)).getD [])) := by
    simp [load_coordination_memory, storeFind_put, loads_encode]
  rw [hload]
  simp [sessionRecord, jGet, pyDictSet, kSessionId, kIssue, kTimestamp, kAgentResults,
    kContext, kSolution, tinySwarm, dispatchLoop, runOK, stepResult, resultsToJ, agentA]

def sessRecA : JVal :=
  sessionRecord ("debug-session-1") ("x") ("t") [(("A" : String), ("r" : String))] []

def sessRecB : JVal :=
  sessionRecord ("debug-session-2") ("x") ("t") [(("A" : String), ("r" : String))] []

def cFive : Coordinator :=
  { memory_db_path := ".swarm/memory.db", swarm := some create_terminal_debug_swarm,
    coordination_log := [], store := [], db_exists := false }

def cTwoSessions : Coordinator :=
  (store_coordination_memory ("t")
    (store_coordination_memory ("t") cFive
      (keyDebugSessions ++ "/debug-session-1") sessRecA).1
    (keyDebugSessions ++ "/debug-session-2") sessRecB).1

/-- C2 code bug exhibit: with the five fixed workers registered and two
session records persisted under per-session subkeys of the sessions key,
the status reports an agent count of five but a debugging session count of
zero, not two: the reporter reads the exact sessions key, which session
persistence never writes. -/
theorem spec2proof_c2_bug :
    jGet (get_coordination_status cTwoSessions) ("agent_count") = some (.jint 5) ∧
    jGet (get_coordination_status cTwoSessions) ("debugging_sessions") =
      some (.jint 0) ∧
    JVal.jint 0 ≠ JVal.jint 2 := by
  have hsw2 : cTwoSessions.swarm = some create_terminal_debug_swarm := rfl
  have hfind : storeFind cTwoSessions.store keyDebugSessions = none := by
    simp [cTwoSessions, cFive, store_coordination_memory, storePut, storeFind,
      keyDebugSessions]
  have hload : load_coordination_memory cTwoSessions keyDebugSessions = none := by
    simp [load_coordination_memory, hfind]
  refine ⟨?_, ?_, by simp⟩
  · simp [get_coordination_status, hsw2, hload, create_terminal_debug_swarm,
      create_debug_agents, jGet]
  · simp [get_coordination_status, hsw2, hload, create_terminal_debug_swarm,
      create_debug_agents, jGet]
